import Mathlib

/-!
Shallow embedding of the elevator simulation core
(`elevator_simulation/models/elevator.py`, `elevator_simulation/models/building.py`,
`elevator_simulation/agents/person.py`).

Modelling conventions:
* A `Floor` is identified by its integer `level` (1-based, contiguous, assigned by
  insertion order into a `Building`); the building guarantees one floor object per
  level, so floor equality is level equality.
* Python `set`s (stops, passengers, wait sets) are modelled as duplicate-free lists
  in iteration order; `set.add` appends when the element is absent (a no-op when
  present), `set.remove` checks membership and raises `KeyError` when absent.
* Python exceptions are modelled by `Except SimError`; each constructor of
  `SimError` names the exception the source raises at that site.
* `direction` is an `Int`; the source treats `None` and `0` identically (both only
  observed through truthiness and comparison with `1`/`-1`), so idle is `0`.
-/

abbrev PersonId := Nat

/-- Exceptions raised by the source, one constructor per raise site kind:
`valueError` (invalid direction / invalid floor), `keyError` (missing dict key or
`set.remove` on an absent element), `attributeError` (`None.add_stop` when the
dispatch strategy returns no elevator), `nameError` (loop variable used after an
empty loop), `capacityExceeded` and `doorsClosed` (the two `RuntimeError`s of
`Elevator.enter` / `Elevator.exit`). -/
inductive SimError where
  | valueError
  | keyError
  | attributeError
  | nameError
  | capacityExceeded
  | doorsClosed
deriving DecidableEq

/-- Modelled from the spec: `Floor.distance` is defined outside `src/`
(`elevator_simulation/models`'s floor model only carries `level` in `building.py`).
Spec section 3: `distance(other)` = |level difference|. -/
def floor_distance (a b : Int) : Nat :=
  (a - b).natAbs

/-- Python `set.add`: a no-op when the element is present, otherwise the element
joins the set (appended in iteration order). -/
def setAdd (l : List PersonId) (a : PersonId) : List PersonId :=
  if a ∈ l then l else l ++ [a]

/-- Python dict lookup `d[key]` over an association list: the value at the first
matching key, `none` when the key is absent (a `KeyError` at the call site). -/
def dictGet (d : List (Int × List PersonId)) (key : Int) : Option (List PersonId) :=
  match d with
  | [] => none
  | (k, v) :: rest => if k = key then some v else dictGet rest key

/-- Python dict store `d[key] = val` over an association list (keys are fixed at
bank construction, so this only overwrites existing entries). -/
def dictSet (d : List (Int × List PersonId)) (key : Int) (val : List PersonId) :
    List (Int × List PersonId) :=
  d.map fun kv => if kv.1 = key then (key, val) else kv

/-- State of `Elevator` (`elevator.py` lines 122-138): valid floors (the bank's
floor list, as levels), requested stops, capacity, direction, passengers, door
state and current location (a level). -/
structure Elevator where
  valid_floors : List Int
  stops : List Int
  capacity : Nat
  direction : Int
  passengers : List PersonId
  doors_open : Bool
  location : Int
deriving DecidableEq

/-- `Elevator.__init__`: no stops, idle, no passengers, doors closed. -/
def Elevator.init (floors : List Int) (capacity : Nat) (starting_location : Int) : Elevator :=
  { valid_floors := floors, stops := [], capacity := capacity, direction := 0,
    passengers := [], doors_open := false, location := starting_location }

/-- `Elevator.is_open` (line 159-162). -/
def Elevator.is_open (e : Elevator) : Bool :=
  e.doors_open

/-- `Elevator.full` (line 145-148): `len(passengers) >= capacity`. -/
def Elevator.full (e : Elevator) : Bool :=
  decide (e.capacity ≤ e.passengers.length)

/-- `Elevator.enter` (lines 170-176): `RuntimeError` when doors are closed, then
`RuntimeError` when full, otherwise `set.add` of the person. -/
def Elevator.enter (e : Elevator) (person : PersonId) : Except SimError Elevator :=
  if e.is_open then
    if e.full then .error .capacityExceeded
    else .ok { e with passengers := setAdd e.passengers person }
  else .error .doorsClosed

/-- `Elevator.exit` (lines 178-182): `RuntimeError` when doors are closed,
otherwise `set.remove` (a `KeyError` when the person is not aboard). -/
def Elevator.exit (e : Elevator) (person : PersonId) : Except SimError Elevator :=
  if e.is_open then
    if person ∈ e.passengers then .ok { e with passengers := e.passengers.erase person }
    else .error .keyError
  else .error .doorsClosed

/-- `Elevator.distance` (lines 184-186): distance from the current location. -/
def Elevator.distance (e : Elevator) (floor : Int) : Nat :=
  floor_distance e.location floor

/-- `Elevator.next_location` (lines 245-257): the current location when idle,
otherwise one level in the current direction clamped to `[1, len(valid_floors)]`,
read back out of the valid-floor list (`valid_floors[next_level - 1]`). -/
def Elevator.next_location (e : Elevator) : Int :=
  if e.direction = 0 then e.location
  else
    let next_level : Int := e.location + e.direction
    let clamped : Int := min (max 1 next_level) (e.valid_floors.length : Int)
    e.valid_floors.getD (clamped - 1).toNat 0

/-- `Elevator.moving_away` (lines 188-193): the predicted next location is
strictly farther from `floor` than the current location is. -/
def Elevator.moving_away (e : Elevator) (floor : Int) : Bool :=
  decide (floor_distance e.next_location floor > floor_distance e.location floor)

/-- `Elevator.add_stop` (lines 264-272): `ValueError` when the floor is not a
valid floor, otherwise `set.add` of the floor to the stops. -/
def Elevator.add_stop (e : Elevator) (floor : Int) : Except SimError Elevator :=
  if floor ∈ e.valid_floors then
    .ok { e with stops := if floor ∈ e.stops then e.stops else e.stops ++ [floor] }
  else .error .valueError

/-- `Elevator.next_direction` (lines 211-231): boundary override against
`valid_floors[0]` / `valid_floors[-1]` first (indexing fails on an empty floor
list, hence `none`); when idle, `0` if there are no stops or the current location
is a stop, otherwise `1` when the distance to `list(stops)[0]` is positive and
`-1` otherwise; when moving, keep the direction unless every stop is
`moving_away`, in which case reverse. -/
def Elevator.next_direction (e : Elevator) : Option Int :=
  match e.valid_floors.head?, e.valid_floors.getLast? with
  | some lowest, some highest =>
    if e.location = lowest then some 1
    else if e.location = highest then some (-1)
    else if e.direction = 0 then
      if e.stops = [] ∨ e.location ∈ e.stops then some 0
      else if 0 < e.distance (e.stops.headD 0) then some 1 else some (-1)
    else
      if !(e.stops.all fun floor => e.moving_away floor) then some e.direction
      else some (-1 * e.direction)
  | _, _ => none

/-- Per-elevator suitability score of `nearest_elevator_dispatch_strategy`
(`elevator.py` lines 22-29), `F` being the length of `floor_list`. -/
def suitability (floor_list : List Int) (floor direction : Int) (e : Elevator) : Int :=
  let distance := e.distance floor
  if e.moving_away floor ∧ distance ≠ 0 then 1
  else if e.direction = direction ∨ e.direction = 0 then
    (floor_list.length : Int) + 2 - (distance : Int)
  else (floor_list.length : Int) + 1 - (distance : Int)

/-- The accumulator loop of `nearest_elevator_dispatch_strategy` (lines 19-33):
starting from `(None, -1)`, each elevator replaces the incumbent exactly when its
suitability is strictly greater. -/
def dispatchLoop (floor_list : List Int) (floor direction : Int) :
    List Elevator → Option Elevator × Int → Option Elevator × Int
  | [], result => result
  | e :: rest, result =>
    dispatchLoop floor_list floor direction rest
      (if result.2 < suitability floor_list floor direction e
       then (some e, suitability floor_list floor direction e) else result)

/-- `nearest_elevator_dispatch_strategy` (lines 8-35). -/
def nearest_elevator_dispatch_strategy (elevator_list : List Elevator)
    (floor_list : List Int) (floor direction : Int) : Option Elevator :=
  (dispatchLoop floor_list floor direction elevator_list (none, -1)).1

/-- In-place mutation of the dispatched elevator inside the bank's elevator
collection: the first occurrence of `old` is replaced by `new`. -/
def replaceFirst : List Elevator → Elevator → Elevator → List Elevator
  | [], _, _ => []
  | x :: xs, old, new => if x = old then new :: xs else x :: replaceFirst xs old new

/-- State of `ElevatorBank` (lines 41-55): serviced floors, owned elevators (in
encounter order of the bank's collection) and the two per-direction wait-set
dictionaries keyed by floor. -/
structure ElevatorBank where
  floors : List Int
  elevators : List Elevator
  wait_list_up : List (Int × List PersonId)
  wait_list_down : List (Int × List PersonId)
deriving DecidableEq

/-- `ElevatorBank.__init__` (lines 49-55): both wait dictionaries get exactly one
empty entry per serviced floor. -/
def ElevatorBank.init (floors : List Int) (elevators : List Elevator) : ElevatorBank :=
  { floors := floors, elevators := elevators,
    wait_list_up := floors.map fun floor => (floor, []),
    wait_list_down := floors.map fun floor => (floor, []) }

/-- Construction invariant of the wait dictionaries: their keys are exactly the
serviced floors (as produced by `ElevatorBank.init` and preserved by every
operation). -/
def ElevatorBank.WF (b : ElevatorBank) : Prop :=
  b.wait_list_up.map Prod.fst = b.floors ∧ b.wait_list_down.map Prod.fst = b.floors

/-- `ElevatorBank.wait` (lines 67-68) with `__wait_set` (lines 57-65) inlined:
`ValueError` on a falsy direction, then dict lookup (a `KeyError` for an
unserviced floor) in the up dictionary for a positive direction and the down
dictionary for a negative one, then `set.add` of the person. -/
def ElevatorBank.wait (b : ElevatorBank) (person : PersonId) (floor direction : Int) :
    Except SimError ElevatorBank :=
  if direction = 0 then .error .valueError
  else if 0 < direction then
    match dictGet b.wait_list_up floor with
    | none => .error .keyError
    | some s => .ok { b with wait_list_up := dictSet b.wait_list_up floor (setAdd s person) }
  else
    match dictGet b.wait_list_down floor with
    | none => .error .keyError
    | some s => .ok { b with wait_list_down := dictSet b.wait_list_down floor (setAdd s person) }

/-- `ElevatorBank.stop_waiting` (lines 70-71) with `__wait_set` inlined:
`set.remove` raises `KeyError` when the person is not in the wait set. -/
def ElevatorBank.stop_waiting (b : ElevatorBank) (person : PersonId) (floor direction : Int) :
    Except SimError ElevatorBank :=
  if direction = 0 then .error .valueError
  else if 0 < direction then
    match dictGet b.wait_list_up floor with
    | none => .error .keyError
    | some s =>
      if person ∈ s then
        .ok { b with wait_list_up := dictSet b.wait_list_up floor (s.erase person) }
      else .error .keyError
  else
    match dictGet b.wait_list_down floor with
    | none => .error .keyError
    | some s =>
      if person ∈ s then
        .ok { b with wait_list_down := dictSet b.wait_list_down floor (s.erase person) }
      else .error .keyError

/-- `ElevatorBank.waiting_passengers` (lines 73-74): a snapshot of the wait set. -/
def ElevatorBank.waiting_passengers (b : ElevatorBank) (floor direction : Int) :
    Except SimError (List PersonId) :=
  if direction = 0 then .error .valueError
  else if 0 < direction then
    match dictGet b.wait_list_up floor with
    | none => .error .keyError
    | some s => .ok s
  else
    match dictGet b.wait_list_down floor with
    | none => .error .keyError
    | some s => .ok s

/-- `ElevatorBank.call_to` (lines 106-117): run the dispatch strategy over the
bank's elevators; when it yields no elevator the source calls `add_stop` on
`None` (an `AttributeError`); otherwise the winner gains the stop in place. -/
def ElevatorBank.call_to (b : ElevatorBank) (floor direction : Int) :
    Except SimError (ElevatorBank × Elevator) :=
  match nearest_elevator_dispatch_strategy b.elevators b.floors floor direction with
  | none => .error .attributeError
  | some elevator =>
    match elevator.add_stop floor with
    | .error err => .error err
    | .ok elevator' =>
      .ok ({ b with elevators := replaceFirst b.elevators elevator elevator' }, elevator')

/-- The calling loop of `Person.run` (`person.py` lines 104-106): for each chosen
bank in order, `wait` then `call_to`; the banks are threaded as state. -/
def personCallBanks (person : PersonId) (floor direction : Int) :
    List ElevatorBank → Except SimError (List ElevatorBank)
  | [] => .ok []
  | b :: rest =>
    match b.wait person floor direction with
    | .error err => .error err
    | .ok b1 =>
      match b1.call_to floor direction with
      | .error err => .error err
      | .ok (b2, _) =>
        match personCallBanks person floor direction rest with
        | .error err => .error err
        | .ok rest' => .ok (b2 :: rest')

/-- The deregistration step of `Person.run` (line 112): after the door-open
signal, `agent.stop_waiting(...)` runs on the loop variable `agent`, which still
names the last bank of the calling loop (a `NameError` if the loop never ran);
only that last bank's wait set is touched. -/
def personAfterDoorOpen (person : PersonId) (floor direction : Int)
    (banks : List ElevatorBank) : Except SimError (List ElevatorBank) :=
  match banks.getLast? with
  | none => .error .nameError
  | some lastBank =>
    match lastBank.stop_waiting person floor direction with
    | .error err => .error err
    | .ok lastBank' => .ok (banks.dropLast ++ [lastBank'])

/-- One travel cycle's wait-set bookkeeping (`person.py` lines 104-112):
register-and-call at every chosen bank, then the post-boarding deregistration. -/
def personTravelWaitPhase (person : PersonId) (floor direction : Int)
    (banks : List ElevatorBank) : Except SimError (List ElevatorBank) :=
  match personCallBanks person floor direction banks with
  | .error err => .error err
  | .ok banks' => personAfterDoorOpen person floor direction banks'

/-- Sequential boarding of a list of people (`enter` in order, stopping at the
first failure). -/
def enterAll (e : Elevator) : List PersonId → Except SimError Elevator
  | [] => .ok e
  | p :: rest =>
    match e.enter p with
    | .error err => .error err
    | .ok e' => enterAll e' rest

/-- Idle elevator on the middle floor of a three-floor bank with a single
requested stop on the floor below. -/
def elevC2 : Elevator := { Elevator.init [1, 2, 3] 10 2 with stops := [1] }

/-- A bank over three floors with one idle elevator on floor 1 (two such banks
play the role of the two distinct bank objects a person can call). -/
def bankA : ElevatorBank := ElevatorBank.init [1, 2, 3] [Elevator.init [1, 2, 3] 10 1]

/-- Elevator of a single-floor bank, sitting on its only floor (which is both the
lowest and the highest valid floor). -/
def elevC5 : Elevator := Elevator.init [1] 10 1

/-- Moving elevator between the boundaries with a stop it is approaching. -/
def elevC4 : Elevator := { Elevator.init [1, 2, 3] 10 2 with direction := 1, stops := [3] }

/-- The five serviced floors of the dispatch example of spec section 8. -/
def floorsW : List Int := [1, 2, 3, 4, 5]

/-- Elevator at distance 2 from floor 3, moving in the requested direction
(clamped at the top, hence not moving away). -/
def eW1 : Elevator := { Elevator.init floorsW 10 5 with direction := 1 }

/-- Elevator at distance 1 from floor 3 but moving away from it. -/
def eW2 : Elevator := { Elevator.init floorsW 10 4 with direction := 1 }

/-- Bank holding the two elevators of the dispatch example, in encounter order. -/
def bankW : ElevatorBank := ElevatorBank.init floorsW [eW1, eW2]

/-- A bank with serviced floors but no elevators at all. -/
def bankNoElev : ElevatorBank := ElevatorBank.init [1, 2, 3] []

/-- Open, empty elevator with capacity 2. -/
def elevC6 : Elevator := { Elevator.init [1, 2, 3] 2 1 with doors_open := true }

/-- Freshly constructed elevator: doors closed, nobody aboard. -/
def elevClosed : Elevator := Elevator.init [1, 2, 3] 10 1

/-- Elevator with open doors and nobody aboard. -/
def elevOpenEmpty : Elevator := { Elevator.init [1, 2, 3] 10 1 with doors_open := true }

/-- Elevator of a two-floor bank at the lowest floor. -/
def elevLow : Elevator := Elevator.init [1, 2] 10 1

/-- Elevator of a two-floor bank at the highest floor. -/
def elevHigh : Elevator := Elevator.init [1, 2] 10 2

theorem dictGet_eq_none (d : List (Int × List PersonId)) (key : Int)
    (h : key ∉ d.map Prod.fst) : dictGet d key = none := by
  induction d with
  | nil => rfl
  | cons kv rest ih =>
    obtain ⟨k, v⟩ := kv
    simp only [List.map_cons, List.mem_cons, not_or] at h
    simp only [dictGet, if_neg (fun hk : k = key => h.1 hk.symm)]
    exact ih h.2

theorem dictGet_of_mem (d : List (Int × List PersonId)) (key : Int)
    (h : key ∈ d.map Prod.fst) : ∃ s, dictGet d key = some s := by
  induction d with
  | nil => simp at h
  | cons kv rest ih =>
    obtain ⟨k, v⟩ := kv
    by_cases hk : k = key
    · exact ⟨v, by simp [dictGet, hk]⟩
    · simp only [List.map_cons, List.mem_cons] at h
      rcases h with h | h

      · exact absurd h.symm hk
      · simpa [dictGet, hk] using ih h

theorem dictGet_dictSet (d : List (Int × List PersonId)) (key : Int) (val : List PersonId) :
    dictGet (dictSet d key val) key = (dictGet d key).map fun _ => val := by
  induction d with
  | nil => rfl
  | cons kv rest ih =>
    obtain ⟨k, v⟩ := kv
    show dictGet ((if k = key then (key, val) else (k, v)) :: dictSet rest key val) key =
      Option.map (fun _ => val) (if k = key then some v else dictGet rest key)
    by_cases hk : k = key
    · rw [if_pos hk, if_pos hk]
      show (if key = key then some val else dictGet (dictSet rest key val) key) = some val
      rw [if_pos rfl]
    · rw [if_neg hk, if_neg hk]
      show (if k = key then some v else dictGet (dictSet rest key val) key) =
        Option.map (fun _ => val) (dictGet rest key)
      rw [if_neg hk, ih]

theorem setAdd_mem_self (s : List PersonId) (p : PersonId) : p ∈ setAdd s p := by
  unfold setAdd
  by_cases h : p ∈ s <;> simp [h]

theorem setAdd_idem (s : List PersonId) (p : PersonId) : setAdd (setAdd s p) p = setAdd s p := by
  show (if p ∈ setAdd s p then setAdd s p else setAdd s p ++ [p]) = setAdd s p
  rw [if_pos (setAdd_mem_self s p)]

theorem dispatchLoop_no_improve (fl : List Int) (floor direction : Int)
    (l : List Elevator) :
    ∀ (best : Option Elevator) (s : Int),
      (∀ x ∈ l, suitability fl floor direction x ≤ s) →
      dispatchLoop fl floor direction l (best, s) = (best, s) := by
  induction l with
  | nil => intro best s _; rfl
  | cons e rest ih =>
    intro best s h
    have he : ¬ ((best, s).2 < suitability fl floor direction e) :=
      not_lt.mpr (h e (List.mem_cons_self e rest))
    simp only [dispatchLoop, if_neg he]
    exact ih best s fun x hx => h x (List.mem_cons_of_mem e hx)

theorem dispatchLoop_first_max (fl : List Int) (floor direction : Int)
    (l₁ l₂ : List Elevator) (e : Elevator)
    (ha : ∀ x ∈ l₂, suitability fl floor direction x ≤ suitability fl floor direction e) :
    ∀ (best : Option Elevator) (s : Int), s < suitability fl floor direction e →
      (∀ x ∈ l₁, suitability fl floor direction x < suitability fl floor direction e) →
      dispatchLoop fl floor direction (l₁ ++ e :: l₂) (best, s) =
        (some e, suitability fl floor direction e) := by
  induction l₁ with
  | nil =>
    intro best s hs _
    simp only [List.nil_append, dispatchLoop, if_pos hs]
    exact dispatchLoop_no_improve fl floor direction l₂ _ _ ha
  | cons x l₁ ih =>
    intro best s hs hb
    simp only [List.cons_append, dispatchLoop]
    by_cases hx : ((best, s).2 < suitability fl floor direction x)
    · rw [if_pos hx]
      exact ih _ _ (hb x (List.mem_cons_self x l₁)) fun y hy => hb y (List.mem_cons_of_mem x hy)
    · rw [if_neg hx]
      exact ih _ _ hs fun y hy => hb y (List.mem_cons_of_mem x hy)

theorem replaceFirst_append (l₁ l₂ : List Elevator) (e e' : Elevator) (h : e ∉ l₁) :
    replaceFirst (l₁ ++ e :: l₂) e e' = l₁ ++ e' :: l₂ := by
  induction l₁ with
  | nil => simp [replaceFirst]
  | cons x l₁ ih =>
    simp only [List.mem_cons, not_or] at h
    simp only [List.cons_append, replaceFirst, if_neg (fun hxe : x = e => h.1 hxe.symm)]
    exact congrArg (List.cons x) (ih h.2)

theorem enterAll_ok (people : List PersonId) :
    ∀ (e : Elevator), e.doors_open = true → people.Nodup →
      (∀ p ∈ people, p ∉ e.passengers) →
      e.passengers.length + people.length ≤ e.capacity →
      ∃ e', enterAll e people = .ok e' ∧
        e'.passengers = e.passengers ++ people ∧
        e'.doors_open = true ∧ e'.capacity = e.capacity := by
  induction people with
  | nil => intro e hopen _ _ _; exact ⟨e, rfl, by simp, hopen, rfl⟩
  | cons p rest ih =>
    intro e hopen hnd hdis hlen
    have hfull : ¬ e.full = true := by
      simp only [Elevator.full, decide_eq_true_eq, not_le]
      simp only [List.length_cons] at hlen
      omega
    have henter : e.enter p = .ok { e with passengers := e.passengers ++ [p] } := by
      simp only [Elevator.enter, Elevator.is_open, hopen, if_true, if_neg hfull]
      simp [setAdd, hdis p (List.mem_cons_self p rest)]
    simp only [List.nodup_cons] at hnd
    obtain ⟨e', h1, h2, h3, h4⟩ :=
      ih { e with passengers := e.passengers ++ [p] } hopen hnd.2
        (by
          intro q hq
          simp only [List.mem_append, List.mem_singleton, not_or]
          exact ⟨hdis q (List.mem_cons_of_mem p hq), fun hqp => hnd.1 (hqp ▸ hq)⟩)
        (by
          simp only [List.length_append, List.length_singleton]
          simp only [List.length_cons] at hlen
          omega)
    refine ⟨e', ?_, ?_, h3, h4⟩
    · simp only [enterAll, henter]
      exact h1
    · rw [h2]
      simp

/-- C1: for every non-empty elevator list, `call_to(f, d)` dispatches to the
first elevator in encounter order whose suitability score is strictly above every
earlier elevator's and at least every later elevator's — a later merely-equal
score never replaces the incumbent — and adds `f` as a stop on that elevator.
Suitability: 1 when moving away from `f` at nonzero distance; `F + 2 - distance`
when the elevator's direction equals `d` or the elevator is idle;
`F + 1 - distance` otherwise (`F` = number of serviced floors). -/
theorem call_to_selects_first_strict_max (b : ElevatorBank) (l₁ l₂ : List Elevator)
    (e : Elevator) (floor direction : Int)
    (hsplit : b.elevators = l₁ ++ e :: l₂)
    (hbefore : ∀ x ∈ l₁,
      suitability b.floors floor direction x < suitability b.floors floor direction e)
    (hafter : ∀ x ∈ l₂,
      suitability b.floors floor direction x ≤ suitability b.floors floor direction e)
    (hpos : -1 < suitability b.floors floor direction e)
    (hfloor : floor ∈ e.valid_floors) :
    nearest_elevator_dispatch_strategy b.elevators b.floors floor direction = some e ∧
    b.call_to floor direction =
      .ok ({ b with elevators :=
               l₁ ++ { e with stops := if floor ∈ e.stops then e.stops else e.stops ++ [floor] } :: l₂ },
           { e with stops := if floor ∈ e.stops then e.stops else e.stops ++ [floor] }) := by
  have hdisp : nearest_elevator_dispatch_strategy b.elevators b.floors floor direction = some e := by
    rw [hsplit]
    unfold nearest_elevator_dispatch_strategy
    rw [dispatchLoop_first_max b.floors floor direction l₁ l₂ e hafter none (-1) hpos hbefore]
  refine ⟨hdisp, ?_⟩
  have hstop : e.add_stop floor =
      .ok { e with stops := if floor ∈ e.stops then e.stops else e.stops ++ [floor] } := by
    simp [Elevator.add_stop, hfloor]
  have hne : e ∉ l₁ := fun hmem => lt_irrefl _ (hbefore e hmem)
  simp only [ElevatorBank.call_to, hdisp, hstop]
  rw [hsplit, replaceFirst_append l₁ l₂ e _ hne]

theorem call_to_selects_first_strict_max_witness :
    nearest_elevator_dispatch_strategy bankW.elevators bankW.floors 3 1 = some eW1 ∧
    bankW.call_to 3 1 =
      .ok ({ bankW with elevators :=
               [] ++ { eW1 with stops := if (3 : Int) ∈ eW1.stops then eW1.stops else eW1.stops ++ [3] } :: [eW2] },
           { eW1 with stops := if (3 : Int) ∈ eW1.stops then eW1.stops else eW1.stops ++ [3] }) :=
  call_to_selects_first_strict_max bankW [] [eW2] eW1 3 1 rfl (by decide) (by decide)
    (by decide) (by decide)

/-- C2: the claim says an idle, non-boundary elevator with its nearest stop
strictly below moves down toward it; the source instead tests
`distance(list(stops)[0]) > 0` — a quantity that is positive for every stop other
than the current floor — so it always answers up. At the failing input (floors
1..3, idle at floor 2, single stop at floor 1) the computed next direction is up. -/
theorem idle_next_direction_at_failing_input :
    elevC2.direction = 0 ∧ elevC2.location = 2 ∧ elevC2.stops = [1] ∧
    elevC2.next_direction = some 1 := by decide

/-- C3: the claim says a served person is removed from the wait set of every bank
it registered with; the source deregisters only through the leaked loop variable
`agent`, i.e. only from the last chosen bank. Evaluating the travel cycle's
wait-set bookkeeping for person 0 at floor 1 going up over two banks: the person
is still in the first bank's wait set afterwards, and only the last bank's wait
set was cleared. -/
theorem stop_waiting_only_last_bank_eval :
    ∃ banks, personTravelWaitPhase 0 1 1 [bankA, bankA] = .ok banks ∧
      banks.map (fun b => (b.waiting_passengers 1 1).toOption) = [some [0], some []] :=
  ⟨_, rfl, by decide⟩

/-- C4: a moving elevator strictly between the boundary floors keeps its
direction when at least one outstanding stop is not classified `moving_away`, and
reverses when every outstanding stop is classified `moving_away` (the
classification comparing the distance from the predicted next location with the
distance from the current location). -/
theorem moving_next_direction_policy (e : Elevator) (lowest highest : Int)
    (hlo : e.valid_floors.head? = some lowest)
    (hhi : e.valid_floors.getLast? = some highest)
    (hnl : e.location ≠ lowest) (hnh : e.location ≠ highest) (hdir : e.direction ≠ 0) :
    ((∃ floor ∈ e.stops, e.moving_away floor = false) → e.next_direction = some e.direction) ∧
    ((∀ floor ∈ e.stops, e.moving_away floor = true) →
      e.next_direction = some (-1 * e.direction)) := by
  unfold Elevator.next_direction
  rw [hlo, hhi]
  simp only [if_neg hnl, if_neg hnh, if_neg hdir]
  constructor
  · rintro ⟨floor, hmem, hfa⟩
    have hall : (e.stops.all fun f => e.moving_away f) = false := by
      simp only [List.all_eq_false]
      exact ⟨floor, hmem, by simp [hfa]⟩
    simp [hall]
  · intro hall
    have hall' : (e.stops.all fun f => e.moving_away f) = true := by
      simp only [List.all_eq_true]
      exact fun f hf => hall f hf
    simp [hall']

theorem moving_next_direction_policy_witness :
    elevC4.next_direction = some elevC4.direction :=
  (moving_next_direction_policy elevC4 1 3 rfl rfl (by decide) (by decide) (by decide)).1
    ⟨3, by decide, by decide⟩

/-- C5 counterexample: with a single valid floor the elevator's location is the
highest valid floor, yet `next_direction` is up (the lowest-floor branch is
checked first), so "at the highest valid floor next_direction is always down"
fails as stated. -/
theorem boundary_highest_claim_false_on_single_floor :
    ¬ (∀ (e : Elevator) (highest : Int), e.valid_floors.getLast? = some highest →
        e.location = highest → e.next_direction = some (-1)) := by
  intro h
  have h1 := h elevC5 1 (by decide) (by decide)
  have h2 : elevC5.next_direction = some 1 := by decide
  rw [h2] at h1
  exact absurd h1 (by decide)

/-- C5 amended: at the lowest valid floor `next_direction` is up regardless of
direction and stops; at the highest valid floor it is down regardless of
direction and stops, provided the highest floor differs from the lowest (with a
single floor the lowest-floor rule wins and the answer is up). -/
theorem boundary_direction_override (e : Elevator) (lowest highest : Int)
    (hlo : e.valid_floors.head? = some lowest)
    (hhi : e.valid_floors.getLast? = some highest) :
    (e.location = lowest → e.next_direction = some 1) ∧
    (lowest ≠ highest → e.location = highest → e.next_direction = some (-1)) := by
  unfold Elevator.next_direction
  rw [hlo, hhi]
  constructor
  · intro h
    simp [h]
  · intro hne h
    have hl : ¬ (e.location = lowest) := fun hl => hne (hl.symm.trans h)
    simp [hl, h]
    exact fun hh => hne hh.symm

theorem boundary_direction_override_witness :
    elevLow.next_direction = some 1 ∧ elevHigh.next_direction = some (-1) :=
  ⟨(boundary_direction_override elevLow 1 2 rfl rfl).1 rfl,
   (boundary_direction_override elevHigh 1 2 rfl rfl).2 (by decide) rfl⟩

/-- C6: with doors open and an empty elevator of capacity `k`, boarding `k`
distinct people succeeds and fills the elevator to exactly `k` passengers, any
further boarding attempt fails with the capacity `RuntimeError`, and after every
prefix of the boarding sequence the passenger count is at most `k`. -/
theorem capacity_invariant_enter (e : Elevator) (people : List PersonId)
    (hopen : e.doors_open = true) (hemp : e.passengers = [])
    (hnd : people.Nodup) (hlen : people.length = e.capacity) :
    ∃ e', enterAll e people = .ok e' ∧ e'.passengers.length = e.capacity ∧
      (∀ q, e'.enter q = .error .capacityExceeded) ∧
      (∀ pre rest, people = pre ++ rest →
        ∃ e'', enterAll e pre = .ok e'' ∧ e''.passengers.length ≤ e.capacity) := by
  obtain ⟨e', h1, h2, h3, h4⟩ :=
    enterAll_ok people e hopen hnd (by simp [hemp]) (by simp [hemp, hlen])
  refine ⟨e', h1, ?_, ?_, ?_⟩
  · rw [h2, hemp]
    simp [hlen]
  · intro q
    have hfull : e'.full = true := by
      simp [Elevator.full, h4, h2, hemp, hlen]
    simp [Elevator.enter, Elevator.is_open, h3, hfull]
  · intro pre rest hsplit
    have hndpre : pre.Nodup := (List.nodup_append.mp (hsplit ▸ hnd)).1
    have hlenpre : pre.length ≤ e.capacity := by
      have hl := congrArg List.length hsplit
      simp only [List.length_append] at hl
      omega
    obtain ⟨e'', g1, g2, _, _⟩ :=
      enterAll_ok pre e hopen hndpre (by simp [hemp]) (by simp [hemp]; omega)
    refine ⟨e'', g1, ?_⟩
    rw [g2, hemp]
    simpa using hlenpre

theorem capacity_invariant_enter_witness :
    ∃ e', enterAll elevC6 [5, 6] = .ok e' ∧ e'.passengers.length = elevC6.capacity ∧
      (∀ q, e'.enter q = .error .capacityExceeded) ∧
      (∀ pre rest, ([5, 6] : List PersonId) = pre ++ rest →
        ∃ e'', enterAll elevC6 pre = .ok e'' ∧ e''.passengers.length ≤ elevC6.capacity) :=
  capacity_invariant_enter elevC6 [5, 6] rfl rfl (by decide) (by decide)

/-- C7 counterexample: direction 2 is not +1 or -1, yet `wait` succeeds (the
source only rejects a falsy direction, any positive value selects the up set), so
"fails exactly when direction is not +1 or -1" is false as stated. -/
theorem wait_accepts_direction_two :
    (bankNoElev.wait 7 1 2).isOk = true ∧ ¬ ((2 : Int) = 1 ∨ (2 : Int) = -1) := by decide

/-- C7 amended: for a serviced floor, `wait` fails with the invalid-direction
`ValueError` exactly when the direction is 0 (the source's falsy test); every
nonzero direction is accepted (positive values select the up set, negative the
down set), and the add is idempotent — a second identical `wait` succeeds and
leaves the wait set unchanged. -/
theorem wait_direction_zero_check (b : ElevatorBank) (p : PersonId) (floor direction : Int)
    (hwf : b.WF) (hf : floor ∈ b.floors) :
    (direction = 0 → b.wait p floor direction = .error .valueError) ∧
    (direction ≠ 0 → ∃ b' b'', b.wait p floor direction = .ok b' ∧
      b'.wait p floor direction = .ok b'' ∧
      b''.waiting_passengers floor direction = b'.waiting_passengers floor direction) := by
  constructor
  · intro h
    simp [ElevatorBank.wait, h]
  · intro hdir
    rcases lt_trichotomy direction 0 with hneg | hzero | hpos
    · have hnlt : ¬ (0 < direction) := by omega
      have hmem : floor ∈ b.wait_list_down.map Prod.fst := by rw [hwf.2]; exact hf
      obtain ⟨s, hget⟩ := dictGet_of_mem _ _ hmem
      have hw1 : b.wait p floor direction =
          .ok { b with wait_list_down := dictSet b.wait_list_down floor (setAdd s p) } := by
        simp [ElevatorBank.wait, hdir, hnlt, hget]
      have hget1 : dictGet (dictSet b.wait_list_down floor (setAdd s p)) floor =
          some (setAdd s p) := by
        rw [dictGet_dictSet, hget]
        rfl
      have hw2 : ElevatorBank.wait
          { b with wait_list_down := dictSet b.wait_list_down floor (setAdd s p) } p floor direction =
          .ok { b with wait_list_down :=
                  dictSet (dictSet b.wait_list_down floor (setAdd s p)) floor (setAdd s p) } := by
        simp [ElevatorBank.wait, hdir, hnlt, hget1, setAdd_idem]
      have hget2 : dictGet (dictSet (dictSet b.wait_list_down floor (setAdd s p)) floor
          (setAdd s p)) floor = some (setAdd s p) := by
        rw [dictGet_dictSet, hget1]
        rfl
      exact ⟨_, _, hw1, hw2, by
        simp [ElevatorBank.waiting_passengers, hdir, hnlt, hget1, hget2]⟩
    · exact absurd hzero hdir
    · have hmem : floor ∈ b.wait_list_up.map Prod.fst := by rw [hwf.1]; exact hf
      obtain ⟨s, hget⟩ := dictGet_of_mem _ _ hmem
      have hw1 : b.wait p floor direction =
          .ok { b with wait_list_up := dictSet b.wait_list_up floor (setAdd s p) } := by
        simp [ElevatorBank.wait, hdir, hpos, hget]
      have hget1 : dictGet (dictSet b.wait_list_up floor (setAdd s p)) floor =
          some (setAdd s p) := by
        rw [dictGet_dictSet, hget]
        rfl
      have hw2 : ElevatorBank.wait
          { b with wait_list_up := dictSet b.wait_list_up floor (setAdd s p) } p floor direction =
          .ok { b with wait_list_up :=
                  dictSet (dictSet b.wait_list_up floor (setAdd s p)) floor (setAdd s p) } := by
        simp [ElevatorBank.wait, hdir, hpos, hget1, setAdd_idem]
      have hget2 : dictGet (dictSet (dictSet b.wait_list_up floor (setAdd s p)) floor
          (setAdd s p)) floor = some (setAdd s p) := by
        rw [dictGet_dictSet, hget1]
        rfl
      exact ⟨_, _, hw1, hw2, by
        simp [ElevatorBank.waiting_passengers, hdir, hpos, hget1, hget2]⟩

theorem wait_direction_zero_check_witness :
    (bankNoElev.wait 7 1 0 = .error .valueError) ∧
    (∃ b' b'', bankNoElev.wait 7 1 1 = .ok b' ∧ b'.wait 7 1 1 = .ok b'' ∧
      b''.waiting_passengers 1 1 = b'.waiting_passengers 1 1) :=
  ⟨(wait_direction_zero_check bankNoElev 7 1 0 ⟨rfl, rfl⟩ (by decide)).1 rfl,
   (wait_direction_zero_check bankNoElev 7 1 1 ⟨rfl, rfl⟩ (by decide)).2 (by decide)⟩

/-- C8: with an empty elevator collection the dispatch strategy yields no
elevator and `call_to` fails with the error of calling `add_stop` on `None`; no
stop is added anywhere and (the call failing before any mutation) the bank is
unchanged. -/
theorem call_to_empty_bank_fails (b : ElevatorBank) (floor direction : Int)
    (h : b.elevators = []) :
    nearest_elevator_dispatch_strategy b.elevators b.floors floor direction = none ∧
    b.call_to floor direction = .error .attributeError := by
  have hd : nearest_elevator_dispatch_strategy b.elevators b.floors floor direction = none := by
    rw [h]
    rfl
  exact ⟨hd, by simp [ElevatorBank.call_to, hd]⟩

theorem call_to_empty_bank_fails_witness :
    nearest_elevator_dispatch_strategy bankNoElev.elevators bankNoElev.floors 1 1 = none ∧
    bankNoElev.call_to 1 1 = .error .attributeError :=
  call_to_empty_bank_fails bankNoElev 1 1 rfl

/-- C9: with doors closed both `enter` and `exit` fail with the doors-closed
`RuntimeError` for every person, and with doors open `exit` fails (the
`set.remove` `KeyError`) when the person is not aboard; in the functional model a
failing call returns only the error, leaving the passenger set untouched. -/
theorem closed_doors_enter_exit_fail (e : Elevator) (p : PersonId) :
    (e.doors_open = false → e.enter p = .error .doorsClosed ∧ e.exit p = .error .doorsClosed) ∧
    (e.doors_open = true → p ∉ e.passengers → e.exit p = .error .keyError) := by
  constructor
  · intro h
    constructor <;> simp [Elevator.enter, Elevator.exit, Elevator.is_open, h]
  · intro h hp
    simp [Elevator.exit, Elevator.is_open, h, hp]

theorem closed_doors_enter_exit_fail_witness :
    (elevClosed.enter 3 = .error .doorsClosed ∧ elevClosed.exit 3 = .error .doorsClosed) ∧
    elevOpenEmpty.exit 4 = .error .keyError :=
  ⟨(closed_doors_enter_exit_fail elevClosed 3).1 rfl,
   (closed_doors_enter_exit_fail elevOpenEmpty 4).2 rfl (by decide)⟩

/-- C10: on a bank whose wait dictionaries are keyed by its serviced floors (as
the constructor builds them), `wait`, `stop_waiting` and `waiting_passengers` all
fail with a `KeyError` at any unserviced floor, even for a valid person and a
valid (+1 or -1) direction. -/
theorem unserviced_floor_operations_fail (b : ElevatorBank) (p : PersonId)
    (floor direction : Int) (hwf : b.WF) (hf : floor ∉ b.floors)
    (hdir : direction = 1 ∨ direction = -1) :
    b.wait p floor direction = .error .keyError ∧
    b.stop_waiting p floor direction = .error .keyError ∧
    b.waiting_passengers floor direction = .error .keyError := by
  have hup : dictGet b.wait_list_up floor = none := by
    refine dictGet_eq_none _ _ ?_
    rw [hwf.1]
    exact hf
  have hdown : dictGet b.wait_list_down floor = none := by
    refine dictGet_eq_none _ _ ?_
    rw [hwf.2]
    exact hf
  rcases hdir with h | h <;> subst h <;>
    exact ⟨by simp [ElevatorBank.wait, hup, hdown],
      by simp [ElevatorBank.stop_waiting, hup, hdown],
      by simp [ElevatorBank.waiting_passengers, hup, hdown]⟩

theorem unserviced_floor_operations_fail_witness :
    bankNoElev.wait 7 99 1 = .error .keyError ∧
    bankNoElev.stop_waiting 7 99 1 = .error .keyError ∧
    bankNoElev.waiting_passengers 99 1 = .error .keyError :=
  unserviced_floor_operations_fail bankNoElev 7 99 1 ⟨rfl, rfl⟩ (by decide) (Or.inl rfl)
